import Mathlib

/-!
# Verification of `OGLStreamBuffer` (video_core/renderer_opengl/gl_stream_buffer.cpp)

Shallow embedding of the OpenGL streaming ring buffer: the member state of
`OGLStreamBuffer` is a record, the GL calls it issues are modelled as an
emitted event list, and the `ASSERT` macro is modelled as `Except.error`.
Byte sizes and offsets (`GLsizeiptr`, `GLintptr`, `size_t`) are modelled as
`Nat`: all arithmetic in the source stays within `[0, 2 * buffer_size]`, far
from any machine-width overflow.
-/

set_option autoImplicit false

namespace StreamBuffer

/-- Modelled from the spec: `Common::AlignUp` from common/alignment.h is not in
src/; the spec says "`cursor` is advanced to the next multiple of `alignment`",
i.e. the least multiple of `a` that is `≥ v` (for `a > 0`). -/
def alignUp (v a : Nat) : Nat :=
  if v % a = 0 then v else v + (a - v % a)

/-- The flag bitfield passed to `glMapBufferRange`, one Boolean per GL bit
actually used by the source (`GL_MAP_WRITE_BIT`, `GL_MAP_PERSISTENT_BIT`,
`GL_MAP_COHERENT_BIT`, `GL_MAP_FLUSH_EXPLICIT_BIT`,
`GL_MAP_INVALIDATE_BUFFER_BIT`, `GL_MAP_UNSYNCHRONIZED_BIT`). -/
structure MapFlags where
  write : Bool
  persistentBit : Bool
  coherentBit : Bool
  flushExplicit : Bool
  invalidateBuffer : Bool
  unsynchronized : Bool
deriving Repr, DecidableEq

/-- The GL calls the component issues, with the arguments the claims are
about. `bufferStorage`/`bufferData` record the allocated byte size;
`mapBufferRange` records the buffer-absolute offset, the length and the
flags; `flushMappedBufferRange` records the mapping-relative offset and
length, exactly as the source passes them. -/
inductive GLCall where
  | bufferStorage (size : Nat)
  | bufferData (size : Nat)
  | mapBufferRange (offset length : Nat) (flags : MapFlags)
  | unmapBuffer
  | flushMappedBufferRange (relOffset length : Nat)
deriving Repr, DecidableEq

/-- The member state of `OGLStreamBuffer`. `buffer_size` is the constructor
argument `size` (the logical capacity); `buffer_pos` is the cursor. The
initial values of `buffer_pos`, `mapped_size`, `mapped_offset`, `persistent`
and `coherent` are the in-class member initializers; the header
gl_stream_buffer.h is not in src/, so they are modelled from the spec
(cursor starts at 0, fallback mode is non-coherent, no mapping is active). -/
structure StreamState where
  buffer_size : Nat
  buffer_pos : Nat
  persistent : Bool
  coherent : Bool
  mapped_size : Nat
  mapped_offset : Nat
deriving Repr, DecidableEq

/-- The 2x over-allocation helper at the top of gl_stream_buffer.cpp:
`GLsizeiptr Hack(GLsizeiptr size) \x7b return size * 2; \x7d`. -/
def Hack (size : Nat) : Nat := size * 2

/-- `OGLStreamBuffer::OGLStreamBuffer(target, size, prefer_coherent)`.
`arbBufferStorage` is the backend capability flag `GLAD_GL_ARB_buffer_storage`.
Returns the constructed state and the GL calls issued (the `glBindBuffer`
and buffer creation are not modelled; the claims do not mention them). -/
def construct (size : Nat) (arbBufferStorage prefer_coherent : Bool) :
    StreamState × List GLCall :=
  if arbBufferStorage then
    ({ buffer_size := size, buffer_pos := 0, persistent := true,
       coherent := prefer_coherent, mapped_size := 0, mapped_offset := 0 },
     [GLCall.bufferStorage (Hack size),
      GLCall.mapBufferRange 0 size
        { write := true, persistentBit := true, coherentBit := prefer_coherent,
          flushExplicit := !prefer_coherent, invalidateBuffer := false,
          unsynchronized := false }])
  else
    ({ buffer_size := size, buffer_pos := 0, persistent := false,
       coherent := false, mapped_size := 0, mapped_offset := 0 },
     [GLCall.bufferData (Hack size)])

/-- `OGLStreamBuffer::GetSize()`. -/
def GetSize (s : StreamState) : Nat := s.buffer_size

/-- The flag bitfield built inside `OGLStreamBuffer::Map`:
`GL_MAP_WRITE_BIT | (persistent ? GL_MAP_PERSISTENT_BIT : 0) |
 (coherent ? GL_MAP_COHERENT_BIT : GL_MAP_FLUSH_EXPLICIT_BIT) |
 (invalidate ? GL_MAP_INVALIDATE_BUFFER_BIT : GL_MAP_UNSYNCHRONIZED_BIT)`. -/
def mkMapFlags (persistent coherent invalidate : Bool) : MapFlags :=
  { write := true, persistentBit := persistent, coherentBit := coherent,
    flushExplicit := !coherent, invalidateBuffer := invalidate,
    unsynchronized := !invalidate }

/-- The `(offset, didInvalidate)` part of `Map`'s return tuple. The returned
pointer `mapped_ptr + buffer_pos - mapped_offset` is the CPU address of
buffer-absolute offset `buffer_pos`, i.e. of `offset`; the claims only speak
of `offset` and `didInvalidate`, so the pointer is not modelled separately. -/
structure MapResult where
  offset : Nat
  invalidate : Bool
deriving Repr, DecidableEq

/-- `OGLStreamBuffer::Map(size, alignment)`. The two `ASSERT`s become
`Except.error`; on success it returns the new state, the GL calls issued in
order, and the `(offset, didInvalidate)` result. -/
def mapStep (s : StreamState) (size alignment : Nat) :
    Except String (StreamState × List GLCall × MapResult) :=
  if size ≤ s.buffer_size then
    if alignment ≤ s.buffer_size then
      let sA : StreamState := { s with mapped_size := size }
      let sB : StreamState :=
        if alignment > 0 then { sA with buffer_pos := alignUp sA.buffer_pos alignment }
        else sA
      let invalidate : Bool := decide (sB.buffer_pos + size > sB.buffer_size)
      let sC : StreamState := if invalidate then { sB with buffer_pos := 0 } else sB
      let calls1 : List GLCall :=
        if invalidate && sB.persistent then [GLCall.unmapBuffer] else []
      if invalidate || !sC.persistent then
        let flags := mkMapFlags sC.persistent sC.coherent invalidate
        let sD : StreamState := { sC with mapped_offset := sC.buffer_pos }
        Except.ok (sD,
          calls1 ++ [GLCall.mapBufferRange sC.buffer_pos (sC.buffer_size - sC.buffer_pos) flags],
          { offset := sC.buffer_pos, invalidate := invalidate })
      else
        Except.ok (sC, calls1, { offset := sC.buffer_pos, invalidate := invalidate })
    else Except.error "alignment > buffer_size"
  else Except.error "size > buffer_size"

/-- `OGLStreamBuffer::Unmap(size)`. The `ASSERT(size <= mapped_size)` becomes
`Except.error`; on success it returns the new state and the GL calls issued. -/
def unmapStep (s : StreamState) (size : Nat) :
    Except String (StreamState × List GLCall) :=
  if size ≤ s.mapped_size then
    let calls1 : List GLCall :=
      if !s.coherent then [GLCall.flushMappedBufferRange (s.buffer_pos - s.mapped_offset) size]
      else []
    let calls2 : List GLCall := if !s.persistent then [GLCall.unmapBuffer] else []
    Except.ok ({ s with buffer_pos := s.buffer_pos + size }, calls1 ++ calls2)
  else Except.error "size > mapped_size"

/-- The cursor value after the alignment step of `Map` (before the wraparound
check): `AlignUp(buffer_pos, alignment)` when `alignment > 0`, unchanged
otherwise. -/
def alignedPos (s : StreamState) (alignment : Nat) : Nat :=
  if alignment > 0 then alignUp s.buffer_pos alignment else s.buffer_pos

/-- Run a list of alternating `Map(size, alignment)` / `Unmap(size)` pairs,
collecting for each pair the `(offset, size, didInvalidate)` triple. -/
def runPairs (s : StreamState) :
    List (Nat × Nat) → Except String (StreamState × List (Nat × Nat × Bool))
  | [] => Except.ok (s, [])
  | (sz, al) :: rest =>
    match mapStep s sz al with
    | Except.error e => Except.error e
    | Except.ok (s1, _, res) =>
      match unmapStep s1 sz with
      | Except.error e => Except.error e
      | Except.ok (s2, _) =>
        match runPairs s2 rest with
        | Except.error e => Except.error e
        | Except.ok (sf, out) => Except.ok (sf, (res.offset, sz, res.invalidate) :: out)

/-- The observable output of a run: the `(offset, size, didInvalidate)`
triples, or the failed assertion. -/
def runOutputs (s : StreamState) (l : List (Nat × Nat)) :
    Except String (List (Nat × Nat × Bool)) :=
  match runPairs s l with
  | Except.ok (_, out) => Except.ok out
  | Except.error e => Except.error e

/-- `true` iff no assertion failed. -/
def exceptOk {α : Type} (e : Except String α) : Bool :=
  match e with
  | Except.ok _ => true
  | Except.error _ => false

/-- The device-storage allocation sizes among a list of GL calls
(`glBufferStorage` / `glBufferData`). -/
def allocCallsOf (calls : List GLCall) : List Nat :=
  calls.filterMap fun c =>
    match c with
    | GLCall.bufferStorage n => some n
    | GLCall.bufferData n => some n
    | _ => none

/-- The `(relOffset, length)` pairs of the `glFlushMappedBufferRange` calls
among a list of GL calls. -/
def flushCallsOf (calls : List GLCall) : List (Nat × Nat) :=
  calls.filterMap fun c =>
    match c with
    | GLCall.flushMappedBufferRange off len => some (off, len)
    | _ => none

/-- The `(offset, length, flags)` triples of the `glMapBufferRange` calls
among a list of GL calls. -/
def mapCallsOf (calls : List GLCall) : List (Nat × Nat × MapFlags) :=
  calls.filterMap fun c =>
    match c with
    | GLCall.mapBufferRange off len fl => some (off, len, fl)
    | _ => none

end StreamBuffer

namespace StreamBuffer

theorem alignUp_le (v a : Nat) : v ≤ alignUp v a := by
  unfold alignUp
  split <;> omega

theorem alignUp_lt (v a : Nat) (ha : 0 < a) : alignUp v a < v + a := by
  unfold alignUp
  have h2 : v % a < a := Nat.mod_lt _ ha
  split <;> omega

theorem alignUp_dvd (v a : Nat) (ha : 0 < a) : a ∣ alignUp v a := by
  unfold alignUp
  by_cases h : v % a = 0
  · rw [if_pos h]
    exact Nat.dvd_of_mod_eq_zero h
  · rw [if_neg h]
    refine ⟨v / a + 1, ?_⟩
    have h1 := Nat.div_add_mod v a
    have h2 : v % a < a := Nat.mod_lt _ ha
    have h3 : a * (v / a + 1) = a * (v / a) + a := by ring
    omega

theorem alignedPos_ge (s : StreamState) (al : Nat) : s.buffer_pos ≤ alignedPos s al := by
  unfold alignedPos
  split
  · exact alignUp_le _ _
  · exact Nat.le_refl _

/-- Master characterization of `Map`: under the two assertions, the call
either wraps (post-alignment cursor plus size exceeds capacity) or not, and
in each case the result state, emitted GL calls and return value are as
listed. -/
theorem mapStep_char (s : StreamState) (sz al : Nat)
    (h1 : sz ≤ s.buffer_size) (h2 : al ≤ s.buffer_size) :
    mapStep s sz al =
      if s.buffer_size < alignedPos s al + sz then
        Except.ok ({ s with buffer_pos := 0, mapped_size := sz, mapped_offset := 0 },
          (if s.persistent then [GLCall.unmapBuffer] else []) ++
            [GLCall.mapBufferRange 0 s.buffer_size (mkMapFlags s.persistent s.coherent true)],
          { offset := 0, invalidate := true })
      else if s.persistent then
        Except.ok ({ s with buffer_pos := alignedPos s al, mapped_size := sz }, [],
          { offset := alignedPos s al, invalidate := false })
      else
        Except.ok (
          { s with
            buffer_pos := alignedPos s al
            mapped_size := sz
            mapped_offset := alignedPos s al },
          [GLCall.mapBufferRange (alignedPos s al) (s.buffer_size - alignedPos s al)
            (mkMapFlags false s.coherent false)],
          { offset := alignedPos s al, invalidate := false }) := by
  rcases s with ⟨bs, bp, pers, coh, ms, mo⟩
  unfold mapStep alignedPos
  rw [if_pos h1, if_pos h2]
  simp only
  by_cases hal : al > 0
  · simp only [if_pos hal]
    by_cases hw : alignUp bp al + sz > bs
    · have hd : decide (alignUp bp al + sz > bs) = true := decide_eq_true hw
      simp only [hd, if_pos hw, Bool.true_and, Bool.true_or, if_true]
      cases pers <;> simp [hw]
    · have hd : decide (alignUp bp al + sz > bs) = false := decide_eq_false hw
      simp only [hd, if_neg hw, Bool.false_and, Bool.false_or]
      cases pers <;> simp [hw]
  · simp only [if_neg hal]
    by_cases hw : bp + sz > bs
    · have hd : decide (bp + sz > bs) = true := decide_eq_true hw
      simp only [hd, if_pos hw, Bool.true_and, Bool.true_or, if_true]
      cases pers <;> simp [hw]
    · have hd : decide (bp + sz > bs) = false := decide_eq_false hw
      simp only [hd, if_neg hw, Bool.false_and, Bool.false_or]
      cases pers <;> simp [hw]

end StreamBuffer

namespace StreamBuffer

/-- Characterization of `Unmap`: under its assertion, the cursor advances by
`size` and the flush/unmap calls are emitted according to the flags. -/
theorem unmapStep_char (s : StreamState) (sz : Nat) (h : sz ≤ s.mapped_size) :
    unmapStep s sz =
      Except.ok ({ s with buffer_pos := s.buffer_pos + sz },
        (if s.coherent then []
          else [GLCall.flushMappedBufferRange (s.buffer_pos - s.mapped_offset) sz]) ++
        (if s.persistent then [] else [GLCall.unmapBuffer])) := by
  unfold unmapStep
  rw [if_pos h]
  cases hc : s.coherent <;> cases hp : s.persistent <;> simp

/-- `Map` succeeds only when its two assertions hold. -/
theorem mapStep_ok_bounds (s : StreamState) (sz al : Nat)
    (x : StreamState × List GLCall × MapResult)
    (h : mapStep s sz al = Except.ok x) :
    sz ≤ s.buffer_size ∧ al ≤ s.buffer_size := by
  by_cases h1 : sz ≤ s.buffer_size
  · by_cases h2 : al ≤ s.buffer_size
    · exact ⟨h1, h2⟩
    · unfold mapStep at h
      rw [if_pos h1, if_neg h2] at h
      exact absurd h (by simp)
  · unfold mapStep at h
    rw [if_neg h1] at h
    exact absurd h (by simp)

/-- Everything a successful `Map` guarantees about the result state, the
returned offset and `didInvalidate`, and the `mapped_offset` bookkeeping. -/
theorem mapStep_ok_facts (s : StreamState) (sz al : Nat) (s1 : StreamState)
    (calls : List GLCall) (res : MapResult)
    (h : mapStep s sz al = Except.ok (s1, calls, res)) :
    s1.buffer_size = s.buffer_size ∧ s1.persistent = s.persistent ∧
    s1.coherent = s.coherent ∧ s1.mapped_size = sz ∧
    s1.buffer_pos = res.offset ∧ res.offset + sz ≤ s.buffer_size ∧
    (res.invalidate = false → res.offset = alignedPos s al) ∧
    (res.invalidate = true → res.offset = 0) ∧
    (res.invalidate = true → s1.mapped_offset = 0) ∧
    (res.invalidate = false → s.persistent = false → s1.mapped_offset = res.offset) ∧
    (res.invalidate = false → s.persistent = true → s1.mapped_offset = s.mapped_offset) := by
  obtain ⟨h1, h2⟩ := mapStep_ok_bounds s sz al _ h
  rw [mapStep_char s sz al h1 h2] at h
  split_ifs at h with hw hp
  all_goals
    simp only [Except.ok.injEq, Prod.mk.injEq] at h
    obtain ⟨hs1, hcalls, hres⟩ := h
    subst hs1
    subst hres
    simp_all
    try omega

/-- Everything a successful `Unmap` guarantees. -/
theorem unmapStep_ok_facts (s : StreamState) (c : Nat) (s2 : StreamState)
    (calls : List GLCall)
    (h : unmapStep s c = Except.ok (s2, calls)) :
    c ≤ s.mapped_size ∧ s2 = { s with buffer_pos := s.buffer_pos + c } ∧
    calls =
      (if s.coherent then []
        else [GLCall.flushMappedBufferRange (s.buffer_pos - s.mapped_offset) c]) ++
      (if s.persistent then [] else [GLCall.unmapBuffer]) := by
  by_cases hc : c ≤ s.mapped_size
  · rw [unmapStep_char s c hc] at h
    simp only [Except.ok.injEq, Prod.mk.injEq] at h
    exact ⟨hc, h.1.symm, h.2.symm⟩
  · unfold unmapStep at h
    rw [if_neg hc] at h
    exact absurd h (by simp)

end StreamBuffer

namespace StreamBuffer

/-- C1: For every call `Reserve(size, alignment)` satisfying the
preconditions `size ≤ capacity` and `alignment ≤ capacity`: wraparound
happens iff the post-alignment cursor plus `size` strictly exceeds
`capacity`; on wrap the cursor is reset to 0, the returned offset is 0 and
`didInvalidate` is true for that call; otherwise the cursor keeps its
post-alignment value (unchanged by the wraparound check), the returned
offset equals that post-alignment cursor, and `didInvalidate` is false. -/
theorem wraparound_rule (s : StreamState) (sz al : Nat) (s1 : StreamState)
    (calls : List GLCall) (res : MapResult)
    (h : mapStep s sz al = Except.ok (s1, calls, res)) :
    (res.invalidate = true ↔ s.buffer_size < alignedPos s al + sz) ∧
    (s.buffer_size < alignedPos s al + sz →
      s1.buffer_pos = 0 ∧ res.offset = 0 ∧ res.invalidate = true) ∧
    (alignedPos s al + sz ≤ s.buffer_size →
      s1.buffer_pos = alignedPos s al ∧ res.offset = alignedPos s al ∧
      res.invalidate = false) := by
  obtain ⟨h1, h2⟩ := mapStep_ok_bounds s sz al _ h
  rw [mapStep_char s sz al h1 h2] at h
  split_ifs at h with hw hp
  all_goals
    simp only [Except.ok.injEq, Prod.mk.injEq] at h
    obtain ⟨hs1, hcalls, hres⟩ := h
    subst hs1
    subst hres
    refine ⟨by simp [hw], fun hx => ?_, fun hx => ?_⟩ <;> simp_all <;> omega

/-- Witness for C1: the concrete call `Map(100, 0)` on a freshly constructed
persistent-mode buffer of capacity 1024 does not wrap. -/
theorem wraparound_rule_witness :
    (({ offset := 0, invalidate := false } : MapResult).invalidate = true ↔
      (construct 1024 true false).1.buffer_size <
        alignedPos (construct 1024 true false).1 0 + 100) ∧
    ((construct 1024 true false).1.buffer_size <
        alignedPos (construct 1024 true false).1 0 + 100 →
      ({ buffer_size := 1024, buffer_pos := 0, persistent := true,
         coherent := false, mapped_size := 100,
         mapped_offset := 0 } : StreamState).buffer_pos = 0 ∧
      ({ offset := 0, invalidate := false } : MapResult).offset = 0 ∧
      ({ offset := 0, invalidate := false } : MapResult).invalidate = true) ∧
    (alignedPos (construct 1024 true false).1 0 + 100 ≤
        (construct 1024 true false).1.buffer_size →
      ({ buffer_size := 1024, buffer_pos := 0, persistent := true,
         coherent := false, mapped_size := 100,
         mapped_offset := 0 } : StreamState).buffer_pos =
        alignedPos (construct 1024 true false).1 0 ∧
      ({ offset := 0, invalidate := false } : MapResult).offset =
        alignedPos (construct 1024 true false).1 0 ∧
      ({ offset := 0, invalidate := false } : MapResult).invalidate = false) :=
  wraparound_rule (construct 1024 true false).1 100 0
    { buffer_size := 1024, buffer_pos := 0, persistent := true,
      coherent := false, mapped_size := 100, mapped_offset := 0 }
    [] { offset := 0, invalidate := false } (by rfl)

/-- C2 counterexample: the code performs no call-sequencing check. On a
fresh persistent-mode buffer of capacity 1024, `Map(100, 0)` called twice
without an intervening `Unmap` succeeds both times (no assertion fails), and
`Unmap(0)` called directly from the freshly constructed (idle) state also
succeeds — contradicting the claim that these fail a fatal contract check. -/
theorem reserve_twice_unchecked :
    exceptOk (mapStep (construct 1024 true false).1 100 0) = true ∧
    (match mapStep (construct 1024 true false).1 100 0 with
     | Except.ok (s1, _, _) => exceptOk (mapStep s1 100 0)
     | Except.error _ => false) = true ∧
    exceptOk (unmapStep (construct 1024 true false).1 0) = true := by decide

/-- C2 (amended): the legal call sequence `Idle → Reserved → Idle` is a
caller-side contract only; the code tracks no reservation state and checks
no sequencing. `Map` succeeds exactly when `size ≤ capacity` and
`alignment ≤ capacity`, and `Unmap` succeeds exactly when
`size ≤ mapped_size`, regardless of any previous call. -/
theorem no_sequencing_check (s : StreamState) (sz al c : Nat) :
    (exceptOk (mapStep s sz al) = true ↔ sz ≤ s.buffer_size ∧ al ≤ s.buffer_size) ∧
    (exceptOk (unmapStep s c) = true ↔ c ≤ s.mapped_size) := by
  constructor
  · constructor
    · intro h
      by_cases h1 : sz ≤ s.buffer_size
      · by_cases h2 : al ≤ s.buffer_size
        · exact ⟨h1, h2⟩
        · unfold mapStep at h
          rw [if_pos h1, if_neg h2] at h
          simp [exceptOk] at h
      · unfold mapStep at h
        rw [if_neg h1] at h
        simp [exceptOk] at h
    · rintro ⟨h1, h2⟩
      rw [mapStep_char s sz al h1 h2]
      split_ifs <;> rfl
  · constructor
    · intro h
      by_cases hc : c ≤ s.mapped_size
      · exact hc
      · unfold unmapStep at h
        rw [if_neg hc] at h
        simp [exceptOk] at h
    · intro hc
      rw [unmapStep_char s c hc]
      rfl

end StreamBuffer

namespace StreamBuffer

/-- C3 counterexample: with capacity 4, the alternating pairs
`Reserve(2, 0)/Commit(2)` then `Reserve(2, 4)/Commit(2)` have cumulative
reserved size `2 + 2 = 4 ≤ 4`, yet the second call wraps (alignment padding
pushes the cursor to 4 and `4 + 2 > 4`): both offsets are 0, so the offsets
do not strictly increase and the two reserved ranges `[0, 2)` coincide. -/
theorem offsets_counterexample :
    2 + 2 ≤ 4 ∧
    runOutputs (construct 4 true false).1 [(2, 0), (2, 4)] =
      Except.ok [(0, 2, false), (0, 2, true)] ∧
    ¬ ([(0 : Nat), 0].Pairwise (· < ·)) ∧
    ¬ ((0 : Nat) + 2 ≤ 0 ∨ (0 : Nat) + 2 ≤ 0) := by
  refine ⟨by omega, by rfl, ?_, by omega⟩
  intro hpw
  rw [List.pairwise_cons] at hpw
  have := hpw.1 0 (by simp)
  omega

/-- Helper for C3: along a run of alternating `Map`/`Unmap` pairs in which
no call wraps, every returned offset is at least the starting cursor, and
any earlier reservation ends at or before any later one begins. -/
theorem runPairs_no_wrap_ordered (l : List (Nat × Nat)) :
    ∀ (s sf : StreamState) (out : List (Nat × Nat × Bool)),
      runPairs s l = Except.ok (sf, out) →
      (∀ e ∈ out, e.2.2 = false) →
      (∀ e ∈ out, s.buffer_pos ≤ e.1) ∧
      out.Pairwise (fun a b => a.1 + a.2.1 ≤ b.1) := by
  induction l with
  | nil =>
    intro s sf out h _
    unfold runPairs at h
    simp only [Except.ok.injEq, Prod.mk.injEq] at h
    obtain ⟨_, h2⟩ := h
    subst h2
    simp
  | cons p rest ih =>
    intro s sf out h hnw
    obtain ⟨sz, al⟩ := p
    unfold runPairs at h
    cases hm : mapStep s sz al with
    | error e =>
      simp only [hm] at h
      exact Except.noConfusion h
    | ok x =>
      obtain ⟨s1, mcalls, res⟩ := x
      simp only [hm] at h
      cases hu : unmapStep s1 sz with
      | error e =>
        simp only [hu] at h
        exact Except.noConfusion h
      | ok y =>
        obtain ⟨s2, ucalls⟩ := y
        simp only [hu] at h
        cases hr : runPairs s2 rest with
        | error e =>
          simp only [hr] at h
          exact Except.noConfusion h
        | ok z =>
          obtain ⟨sf2, out2⟩ := z
          simp only [hr, Except.ok.injEq, Prod.mk.injEq] at h
          obtain ⟨hsf, hout⟩ := h
          subst hout
          have hinv : res.invalidate = false := by
            have := hnw (res.offset, sz, res.invalidate) (by simp)
            simpa using this
          obtain ⟨hbs, hpers, hcoh, hms, hbp, hlt, hoff, -, -, -, -⟩ :=
            mapStep_ok_facts s sz al s1 mcalls res hm
          obtain ⟨hc, hs2, hcalls⟩ := unmapStep_ok_facts s1 sz s2 ucalls hu
          have hge : s.buffer_pos ≤ res.offset := by
            rw [hoff hinv]
            exact alignedPos_ge s al
          have hs2pos : s2.buffer_pos = res.offset + sz := by
            rw [hs2]
            simp [hbp]
          obtain ⟨ih1, ih2⟩ := ih s2 sf2 out2 hr (fun e he => hnw e (by simp [he]))
          constructor
          · intro e he
            rcases List.mem_cons.mp he with he | he
            · subst he
              exact hge
            · have := ih1 e he
              omega
          · refine List.Pairwise.cons (fun e he => ?_) ih2
            have := ih1 e he
            show res.offset + sz ≤ e.1
            omega

/-- C3 (amended): for alternating `Reserve(size, alignment)/Commit(size)`
pairs in which every size is positive and no call wraps (the cumulative
footprint including alignment padding never exceeds `capacity`, witnessed by
`didInvalidate = false` on every call), the returned offsets strictly
increase and the reserved byte ranges `[offset, offset+size)` are pairwise
disjoint. As stated the claim is false: alignment padding can force a wrap
— hence repeated and overlapping offsets — even when the cumulative
reserved size alone never exceeds `capacity`. -/
theorem offsets_monotone_disjoint (l : List (Nat × Nat)) (s sf : StreamState)
    (out : List (Nat × Nat × Bool))
    (h : runPairs s l = Except.ok (sf, out))
    (hnw : ∀ e ∈ out, e.2.2 = false)
    (hpos : ∀ e ∈ out, 0 < e.2.1) :
    (out.map (fun e => e.1)).Pairwise (· < ·) ∧
    out.Pairwise (fun a b => a.1 + a.2.1 ≤ b.1 ∨ b.1 + b.2.1 ≤ a.1) := by
  obtain ⟨-, hpw⟩ := runPairs_no_wrap_ordered l s sf out h hnw
  constructor
  · rw [List.pairwise_map]
    refine hpw.imp_of_mem ?_
    intro a b ha _ hab
    have := hpos a ha
    omega
  · exact hpw.imp (fun hab => Or.inl hab)

/-- Witness for C3 (amended): capacity 1024, pairs
`(100, 0), (200, 16), (300, 64)`; no call wraps and the offsets are
`0 < 112 < 320` with disjoint ranges. -/
theorem offsets_monotone_disjoint_witness :
    runPairs (construct 1024 true false).1 [(100, 0), (200, 16), (300, 64)] =
      Except.ok ({ buffer_size := 1024, buffer_pos := 620, persistent := true,
                   coherent := false, mapped_size := 300, mapped_offset := 0 },
        [(0, 100, false), (112, 200, false), (320, 300, false)]) ∧
    (∀ e ∈ [((0 : Nat), (100 : Nat), false), (112, 200, false), (320, 300, false)],
      e.2.2 = false) ∧
    (∀ e ∈ [((0 : Nat), (100 : Nat), false), (112, 200, false), (320, 300, false)],
      0 < e.2.1) ∧
    (([((0 : Nat), (100 : Nat), false), (112, 200, false),
        (320, 300, false)].map (fun e => e.1)).Pairwise (· < ·) ∧
      [((0 : Nat), (100 : Nat), false), (112, 200, false),
        (320, 300, false)].Pairwise (fun a b => a.1 + a.2.1 ≤ b.1 ∨ b.1 + b.2.1 ≤ a.1)) :=
  ⟨by rfl, by decide, by decide,
    offsets_monotone_disjoint [(100, 0), (200, 16), (300, 64)]
      (construct 1024 true false).1
      { buffer_size := 1024, buffer_pos := 620, persistent := true
        coherent := false, mapped_size := 300, mapped_offset := 0 }
      [(0, 100, false), (112, 200, false), (320, 300, false)]
      (by rfl) (by decide) (by decide)⟩

end StreamBuffer

namespace StreamBuffer

/-- C4: In persistent mode, `Reserve` releases the existing mapping and
requests a fresh mapping covering the full logical buffer, tagged
invalidate, exactly when `didInvalidate` is true; when it is false there is
no backend call at all. In fallback mode, every `Reserve` creates one new
mapping covering exactly `[cursor, capacity)`, tagged
`GL_MAP_INVALIDATE_BUFFER_BIT` when `didInvalidate` is true and
`GL_MAP_UNSYNCHRONIZED_BIT` when it is false (the last conjunct unfolds the
tag encoding of `mkMapFlags`). -/
theorem mapping_rule (s : StreamState) (sz al : Nat) (s1 : StreamState)
    (calls : List GLCall) (res : MapResult)
    (h : mapStep s sz al = Except.ok (s1, calls, res)) :
    (s.persistent = true → res.invalidate = true →
      calls = [GLCall.unmapBuffer,
        GLCall.mapBufferRange 0 s.buffer_size (mkMapFlags true s.coherent true)]) ∧
    (s.persistent = true → res.invalidate = false → calls = []) ∧
    (s.persistent = false →
      calls = [GLCall.mapBufferRange res.offset (s.buffer_size - res.offset)
        (mkMapFlags false s.coherent res.invalidate)]) ∧
    (∀ p c i : Bool, (mkMapFlags p c i).invalidateBuffer = i ∧
      (mkMapFlags p c i).unsynchronized = !i) := by
  obtain ⟨h1, h2⟩ := mapStep_ok_bounds s sz al _ h
  rw [mapStep_char s sz al h1 h2] at h
  split_ifs at h with hw hp
  all_goals
    simp only [Except.ok.injEq, Prod.mk.injEq] at h
    obtain ⟨hs1, hcalls, hres⟩ := h
    subst hs1
    subst hres
    subst hcalls
    refine ⟨fun hper hinv => ?_, fun hper hinv => ?_, fun hper => ?_,
      fun p c i => ⟨rfl, rfl⟩⟩ <;> simp_all

/-- Witness for C4: `Map(100, 0)` on a fresh fallback-mode buffer of
capacity 1024 emits exactly one unsynchronized mapping of `[0, 1024)`. -/
theorem mapping_rule_witness :
    ((construct 1024 false false).1.persistent = true →
      ({ offset := 0, invalidate := false } : MapResult).invalidate = true →
      [GLCall.mapBufferRange 0 1024 (mkMapFlags false false false)] =
        [GLCall.unmapBuffer,
          GLCall.mapBufferRange 0 (construct 1024 false false).1.buffer_size
            (mkMapFlags true (construct 1024 false false).1.coherent true)]) ∧
    ((construct 1024 false false).1.persistent = true →
      ({ offset := 0, invalidate := false } : MapResult).invalidate = false →
      [GLCall.mapBufferRange 0 1024 (mkMapFlags false false false)] = []) ∧
    ((construct 1024 false false).1.persistent = false →
      [GLCall.mapBufferRange 0 1024 (mkMapFlags false false false)] =
        [GLCall.mapBufferRange ({ offset := 0, invalidate := false } : MapResult).offset
          ((construct 1024 false false).1.buffer_size -
            ({ offset := 0, invalidate := false } : MapResult).offset)
          (mkMapFlags false (construct 1024 false false).1.coherent
            ({ offset := 0, invalidate := false } : MapResult).invalidate)]) ∧
    (∀ p c i : Bool, (mkMapFlags p c i).invalidateBuffer = i ∧
      (mkMapFlags p c i).unsynchronized = !i) :=
  mapping_rule (construct 1024 false false).1 100 0
    { buffer_size := 1024, buffer_pos := 0, persistent := false,
      coherent := false, mapped_size := 100, mapped_offset := 0 }
    [GLCall.mapBufferRange 0 1024 (mkMapFlags false false false)]
    { offset := 0, invalidate := false } (by rfl)

/-- C5: On `Commit(size)` following a `Reserve` that returned `offset`, if
the effective coherency mode is non-coherent the emitted flush calls are
exactly one `glFlushMappedBufferRange` whose buffer-absolute range is
`[offset, offset + size)` — the mapping base (`mapped_offset`) plus the
relative flush offset equals `offset`, and the flushed length is exactly the
committed `size`; if the mode is coherent, no flush is emitted. The
hypothesis `hpm` is the persistent-mapping invariant (the persistent mapping
created by the constructor starts at buffer offset 0), true in every
reachable state. -/
theorem commit_flush_exact (s : StreamState) (sz al c : Nat) (s1 : StreamState)
    (mcalls : List GLCall) (res : MapResult) (s2 : StreamState)
    (ucalls : List GLCall)
    (hpm : s.persistent = true → s.mapped_offset = 0)
    (hm : mapStep s sz al = Except.ok (s1, mcalls, res))
    (hu : unmapStep s1 c = Except.ok (s2, ucalls)) :
    (s1.coherent = false →
      (flushCallsOf ucalls).map (fun f => (s1.mapped_offset + f.1, f.2)) =
        [(res.offset, c)]) ∧
    (s1.coherent = true → flushCallsOf ucalls = []) := by
  obtain ⟨hbs, hpers, hcoh, hms, hbp, hlt, hoff, hoff0, hmo0, hmof, hmop⟩ :=
    mapStep_ok_facts s sz al s1 mcalls res hm
  obtain ⟨hc, hs2, hcalls⟩ := unmapStep_ok_facts s1 c s2 ucalls hu
  subst hcalls
  have hmole : s1.mapped_offset ≤ s1.buffer_pos ∧
      s1.mapped_offset + (s1.buffer_pos - s1.mapped_offset) = res.offset := by
    cases hinv : res.invalidate with
    | true =>
      have := hmo0 hinv
      omega
    | false =>
      cases hper : s.persistent with
      | true =>
        have := hmop hinv hper
        have := hpm hper
        omega
      | false =>
        have := hmof hinv hper
        omega
  constructor
  · intro hcohf
    rw [if_neg (by simp [hcohf])]
    cases hper2 : s1.persistent <;>
      simp [flushCallsOf, hmole.2]
  · intro hcoht
    rw [if_pos hcoht]
    cases hper2 : s1.persistent <;> simp [flushCallsOf]

/-- Witness for C5: on a fresh persistent non-coherent buffer of capacity
64, `Map(10, 0)` returns offset 0 and `Unmap(10)` flushes exactly
`[0, 10)`. -/
theorem commit_flush_exact_witness :
    ((construct 64 true false).1.persistent = true →
      (construct 64 true false).1.mapped_offset = 0) ∧
    ((({ buffer_size := 64, buffer_pos := 0, persistent := true,
         coherent := false, mapped_size := 10,
         mapped_offset := 0 } : StreamState).coherent = false →
      (flushCallsOf [GLCall.flushMappedBufferRange 0 10]).map
          (fun f => (({ buffer_size := 64, buffer_pos := 0, persistent := true,
                        coherent := false, mapped_size := 10,
                        mapped_offset := 0 } : StreamState).mapped_offset + f.1, f.2)) =
        [(({ offset := 0, invalidate := false } : MapResult).offset, 10)]) ∧
    (({ buffer_size := 64, buffer_pos := 0, persistent := true,
        coherent := false, mapped_size := 10,
        mapped_offset := 0 } : StreamState).coherent = true →
      flushCallsOf [GLCall.flushMappedBufferRange 0 10] = [])) :=
  ⟨by decide,
    commit_flush_exact (construct 64 true false).1 10 0 10
      { buffer_size := 64, buffer_pos := 0, persistent := true,
        coherent := false, mapped_size := 10, mapped_offset := 0 }
      [] { offset := 0, invalidate := false }
      { buffer_size := 64, buffer_pos := 10, persistent := true,
        coherent := false, mapped_size := 10, mapped_offset := 0 }
      [GLCall.flushMappedBufferRange 0 10]
      (by decide) (by rfl) (by rfl)⟩

end StreamBuffer

namespace StreamBuffer

/-- Both `Map` assertions fail with the size assertion first, independently
of the mapping-capability flags. -/
theorem mapStep_err_size (s : StreamState) (sz al : Nat)
    (h1 : ¬ sz ≤ s.buffer_size) :
    mapStep s sz al = Except.error "size > buffer_size" := by
  unfold mapStep
  rw [if_neg h1]

theorem mapStep_err_align (s : StreamState) (sz al : Nat)
    (h1 : sz ≤ s.buffer_size) (h2 : ¬ al ≤ s.buffer_size) :
    mapStep s sz al = Except.error "alignment > buffer_size" := by
  unfold mapStep
  rw [if_pos h1, if_neg h2]

/-- Helper for C6: from two states that agree on capacity and cursor, `Map`
returns the same `(offset, didInvalidate)` and leads to states that again
agree on capacity, cursor and `mapped_size`, whatever the flags are. -/
theorem mapStep_agree (s t : StreamState) (sz al : Nat)
    (hsize : s.buffer_size = t.buffer_size) (hpos : s.buffer_pos = t.buffer_pos)
    (h1 : sz ≤ s.buffer_size) (h2 : al ≤ s.buffer_size) :
    ∃ s1 t1 mc1 mc2 res,
      mapStep s sz al = Except.ok (s1, mc1, res) ∧
      mapStep t sz al = Except.ok (t1, mc2, res) ∧
      s1.buffer_size = s.buffer_size ∧ t1.buffer_size = t.buffer_size ∧
      s1.buffer_pos = t1.buffer_pos ∧ s1.mapped_size = sz ∧
      t1.mapped_size = sz := by
  have hap : alignedPos s al = alignedPos t al := by
    unfold alignedPos
    rw [hpos]
  rw [mapStep_char s sz al h1 h2,
    mapStep_char t sz al (hsize ▸ h1) (hsize ▸ h2)]
  rw [← hsize, ← hap]
  by_cases hw : s.buffer_size < alignedPos s al + sz
  · rw [if_pos hw, if_pos hw]
    exact ⟨_, _, _, _, _, rfl, rfl, rfl, hsize.symm ▸ rfl, rfl, rfl, rfl⟩
  · rw [if_neg hw, if_neg hw]
    split_ifs <;>
      exact ⟨_, _, _, _, _, rfl, rfl, rfl, hsize.symm ▸ rfl, rfl, rfl, rfl⟩

/-- Helper for C6: runs of the same pair list from two states agreeing on
capacity and cursor produce identical outputs (offsets, sizes and
`didInvalidate` flags, or the same failed assertion). -/
theorem runOutputs_agree (l : List (Nat × Nat)) :
    ∀ s t : StreamState, s.buffer_size = t.buffer_size →
      s.buffer_pos = t.buffer_pos →
      runOutputs s l = runOutputs t l := by
  induction l with
  | nil => intro s t _ _; rfl
  | cons p rest ih =>
    intro s t hsize hpos
    obtain ⟨sz, al⟩ := p
    by_cases h1 : sz ≤ s.buffer_size
    · by_cases h2 : al ≤ s.buffer_size
      · obtain ⟨s1, t1, mc1, mc2, res, hms, hmt, hbs1, hbt1, hagree, hms1, hmt1⟩ :=
          mapStep_agree s t sz al hsize hpos h1 h2
        have hus := unmapStep_char s1 sz (by omega)
        have hut := unmapStep_char t1 sz (by omega)
        unfold runOutputs runPairs
        simp only [hms, hmt, hus, hut]
        have hrec := ih { s1 with buffer_pos := s1.buffer_pos + sz }
          { t1 with buffer_pos := t1.buffer_pos + sz }
          (by simp [hbs1, hbt1, hsize]) (by simp [hagree])
        unfold runOutputs at hrec
        cases hl : runPairs { s1 with buffer_pos := s1.buffer_pos + sz } rest with
        | error e =>
          rw [hl] at hrec
          cases hr : runPairs { t1 with buffer_pos := t1.buffer_pos + sz } rest with
          | error f =>
            rw [hr] at hrec
            simp_all
          | ok z =>
            rw [hr] at hrec
            exact absurd hrec (by simp)
        | ok y =>
          rw [hl] at hrec
          cases hr : runPairs { t1 with buffer_pos := t1.buffer_pos + sz } rest with
          | error f =>
            rw [hr] at hrec
            exact absurd hrec (by simp)
          | ok z =>
            rw [hr] at hrec
            obtain ⟨sfy, outy⟩ := y
            obtain ⟨sfz, outz⟩ := z
            simp_all
      · unfold runOutputs runPairs
        rw [mapStep_err_align s sz al h1 h2,
          mapStep_err_align t sz al (hsize ▸ h1) (fun hc => h2 (hsize ▸ hc))]
    · unfold runOutputs runPairs
      rw [mapStep_err_size s sz al h1,
        mapStep_err_size t sz al (fun hc => h1 (hsize ▸ hc))]

/-- C6: For the same sequence of `Reserve(size, alignment)/Commit(size)`
pairs, the sequence of offsets and `didInvalidate` values is identical
whether the object was constructed in persistent-mapping mode or fallback
mode (and for either coherency preference): the cursor/wraparound allocation
algorithm does not depend on the mapping-capability flags. -/
theorem mode_independent_outputs (cap : Nat) (pc1 pc2 : Bool)
    (l : List (Nat × Nat)) :
    runOutputs (construct cap true pc1).1 l =
      runOutputs (construct cap false pc2).1 l :=
  runOutputs_agree l (construct cap true pc1).1 (construct cap false pc2).1
    (by simp [construct]) (by simp [construct])

/-- C7: For every `Reserve(size, alignment)` call that passes its
assertions, if `alignment > 0` the cursor is advanced to the next multiple
of `alignment` (the least multiple that is at least the old cursor) before
the reservation, and the returned offset is always a multiple of
`alignment` (including on wrapping calls, where the offset is 0); if
`alignment = 0`, no alignment adjustment is applied. -/
theorem reserve_alignment (s : StreamState) (sz al : Nat) (s1 : StreamState)
    (calls : List GLCall) (res : MapResult)
    (h : mapStep s sz al = Except.ok (s1, calls, res)) :
    (0 < al →
      al ∣ alignedPos s al ∧ s.buffer_pos ≤ alignedPos s al ∧
      alignedPos s al < s.buffer_pos + al ∧ al ∣ res.offset) ∧
    (al = 0 → alignedPos s al = s.buffer_pos ∧
      (res.invalidate = false → res.offset = s.buffer_pos)) := by
  obtain ⟨hbs, hpers, hcoh, hms, hbp, hlt, hoff, hoff0, -, -, -⟩ :=
    mapStep_ok_facts s sz al s1 calls res h
  constructor
  · intro hal
    have hdvd : al ∣ alignedPos s al := by
      unfold alignedPos
      rw [if_pos hal]
      exact alignUp_dvd s.buffer_pos al hal
    refine ⟨hdvd, alignedPos_ge s al, ?_, ?_⟩
    · unfold alignedPos
      rw [if_pos hal]
      exact alignUp_lt s.buffer_pos al hal
    · cases hinv : res.invalidate with
      | true =>
        rw [hoff0 hinv]
        exact Dvd.intro 0 rfl
      | false =>
        rw [hoff hinv]
        exact hdvd
  · intro hal
    subst hal
    refine ⟨by unfold alignedPos; simp, fun hinv => ?_⟩
    rw [hoff hinv]
    unfold alignedPos
    simp

/-- Witness for C7: `Map(16, 16)` from cursor 10 in a capacity-64 buffer
aligns the cursor to 16 and returns offset 16, a multiple of 16. -/
theorem reserve_alignment_witness :
    (0 < 16 →
      16 ∣ alignedPos (⟨64, 10, true, false, 10, 0⟩ : StreamState) 16 ∧
      (⟨64, 10, true, false, 10, 0⟩ : StreamState).buffer_pos ≤
        alignedPos (⟨64, 10, true, false, 10, 0⟩ : StreamState) 16 ∧
      alignedPos (⟨64, 10, true, false, 10, 0⟩ : StreamState) 16 <
        (⟨64, 10, true, false, 10, 0⟩ : StreamState).buffer_pos + 16 ∧
      16 ∣ (⟨16, false⟩ : MapResult).offset) ∧
    ((16 : Nat) = 0 →
      alignedPos (⟨64, 10, true, false, 10, 0⟩ : StreamState) 16 =
        (⟨64, 10, true, false, 10, 0⟩ : StreamState).buffer_pos ∧
      ((⟨16, false⟩ : MapResult).invalidate = false →
        (⟨16, false⟩ : MapResult).offset =
          (⟨64, 10, true, false, 10, 0⟩ : StreamState).buffer_pos)) :=
  reserve_alignment (⟨64, 10, true, false, 10, 0⟩ : StreamState) 16 16
    (⟨64, 16, true, false, 16, 0⟩ : StreamState) [] (⟨16, false⟩ : MapResult)
    (by rfl)

end StreamBuffer

namespace StreamBuffer

/-- C8: invariants preserved by every operation. The constructed cursor is 0
(and at most the capacity); a successful `Reserve` leaves
`offset + size ≤ capacity` — every reservation lies inside the logical
buffer — and a cursor between 0 and `capacity`; a successful `Commit` keeps
the cursor at most `capacity` (the committed write
`[offset, offset + c) ⊆ [0, capacity)` never straddles the end of the
buffer). -/
theorem cursor_invariant (cap : Nat) (arb pc : Bool) (s : StreamState)
    (sz al c : Nat) (s1 : StreamState) (mcalls : List GLCall) (res : MapResult)
    (s2 : StreamState) (ucalls : List GLCall)
    (hm : mapStep s sz al = Except.ok (s1, mcalls, res))
    (hu : unmapStep s1 c = Except.ok (s2, ucalls)) :
    (construct cap arb pc).1.buffer_pos = 0 ∧
    (construct cap arb pc).1.buffer_pos ≤ (construct cap arb pc).1.buffer_size ∧
    res.offset + sz ≤ s.buffer_size ∧
    s1.buffer_pos + s1.mapped_size ≤ s1.buffer_size ∧
    s1.buffer_pos ≤ s1.buffer_size ∧
    s2.buffer_pos ≤ s2.buffer_size := by
  obtain ⟨hbs, hpers, hcoh, hms, hbp, hlt, -, -, -, -, -⟩ :=
    mapStep_ok_facts s sz al s1 mcalls res hm
  obtain ⟨hc, hs2, -⟩ := unmapStep_ok_facts s1 c s2 ucalls hu
  subst hs2
  refine ⟨?_, ?_, hlt, by omega, by omega, ?_⟩
  · cases arb <;> simp [construct]
  · cases arb <;> simp [construct]
  · show s1.buffer_pos + c ≤ s1.buffer_size
    omega

/-- Witness for C8 at a concrete `Map(16, 16)`/`Unmap(16)` pair from cursor
10 in a capacity-64 buffer. -/
theorem cursor_invariant_witness :
    (construct 64 true false).1.buffer_pos = 0 ∧
    (construct 64 true false).1.buffer_pos ≤ (construct 64 true false).1.buffer_size ∧
    (⟨16, false⟩ : MapResult).offset + 16 ≤
      (⟨64, 10, true, false, 10, 0⟩ : StreamState).buffer_size ∧
    (⟨64, 16, true, false, 16, 0⟩ : StreamState).buffer_pos +
        (⟨64, 16, true, false, 16, 0⟩ : StreamState).mapped_size ≤
      (⟨64, 16, true, false, 16, 0⟩ : StreamState).buffer_size ∧
    (⟨64, 16, true, false, 16, 0⟩ : StreamState).buffer_pos ≤
      (⟨64, 16, true, false, 16, 0⟩ : StreamState).buffer_size ∧
    (⟨64, 32, true, false, 16, 0⟩ : StreamState).buffer_pos ≤
      (⟨64, 32, true, false, 16, 0⟩ : StreamState).buffer_size :=
  cursor_invariant 64 true false (⟨64, 10, true, false, 10, 0⟩ : StreamState)
    16 16 16 (⟨64, 16, true, false, 16, 0⟩ : StreamState) []
    (⟨16, false⟩ : MapResult) (⟨64, 32, true, false, 16, 0⟩ : StreamState)
    [GLCall.flushMappedBufferRange 16 16] (by rfl) (by rfl)

/-- C9: the backing device storage is allocated at exactly twice the
requested capacity in both construction paths (the only
`glBufferStorage`/`glBufferData` call passes `Hack(size) = size * 2`), while
`GetSize` returns the original requested capacity and both `Map` and
`Unmap` leave it unchanged — all cursor/wraparound arithmetic operates
against the original capacity. -/
theorem backing_double (cap sz al c : Nat) (arb pc : Bool)
    (s s1 s2 : StreamState) (mcalls ucalls : List GLCall) (res : MapResult)
    (hm : mapStep s sz al = Except.ok (s1, mcalls, res))
    (hu : unmapStep s1 c = Except.ok (s2, ucalls)) :
    allocCallsOf (construct cap arb pc).2 = [cap * 2] ∧
    Hack cap = cap * 2 ∧
    GetSize (construct cap arb pc).1 = cap ∧
    GetSize s1 = GetSize s ∧ GetSize s2 = GetSize s := by
  obtain ⟨hbs, -, -, -, -, -, -, -, -, -, -⟩ :=
    mapStep_ok_facts s sz al s1 mcalls res hm
  obtain ⟨-, hs2, -⟩ := unmapStep_ok_facts s1 c s2 ucalls hu
  subst hs2
  refine ⟨?_, rfl, ?_, hbs, ?_⟩
  · cases arb <;> simp [construct, allocCallsOf, Hack]
  · cases arb <;> simp [construct, GetSize]
  · simpa [GetSize] using hbs

/-- Witness for C9 at capacity 1024 with the `Map(16, 16)`/`Unmap(16)` pair
from cursor 10 in a capacity-64 buffer. -/
theorem backing_double_witness :
    allocCallsOf (construct 1024 true false).2 = [1024 * 2] ∧
    Hack 1024 = 1024 * 2 ∧
    GetSize (construct 1024 true false).1 = 1024 ∧
    GetSize (⟨64, 16, true, false, 16, 0⟩ : StreamState) =
      GetSize (⟨64, 10, true, false, 10, 0⟩ : StreamState) ∧
    GetSize (⟨64, 32, true, false, 16, 0⟩ : StreamState) =
      GetSize (⟨64, 10, true, false, 10, 0⟩ : StreamState) :=
  backing_double 1024 16 16 16 true false
    (⟨64, 10, true, false, 10, 0⟩ : StreamState)
    (⟨64, 16, true, false, 16, 0⟩ : StreamState)
    (⟨64, 32, true, false, 16, 0⟩ : StreamState)
    [] [GLCall.flushMappedBufferRange 16 16]
    (⟨16, false⟩ : MapResult) (by rfl) (by rfl)

/-- C10 (implicit): in fallback mode the effective coherency mode is always
non-coherent — the constructor only sets `coherent` in the persistent
branch, so a fallback construction yields `coherent = false` regardless of
`prefer_coherent` — `Map` and `Unmap` never change the flag, and every
`Commit` in a non-coherent state performs the explicit flush. -/
theorem fallback_noncoherent_flush (cap : Nat) (pc : Bool) (s : StreamState)
    (sz al c : Nat) (s1 s2 : StreamState) (mcalls ucalls : List GLCall)
    (res : MapResult)
    (hm : mapStep s sz al = Except.ok (s1, mcalls, res))
    (hu : unmapStep s1 c = Except.ok (s2, ucalls)) :
    (construct cap false pc).1.coherent = false ∧
    s1.coherent = s.coherent ∧ s2.coherent = s1.coherent ∧
    (s1.coherent = false →
      flushCallsOf ucalls = [(s1.buffer_pos - s1.mapped_offset, c)]) := by
  obtain ⟨-, -, hcoh, -, -, -, -, -, -, -, -⟩ :=
    mapStep_ok_facts s sz al s1 mcalls res hm
  obtain ⟨-, hs2, hcalls⟩ := unmapStep_ok_facts s1 c s2 ucalls hu
  subst hs2
  subst hcalls
  refine ⟨by simp [construct], hcoh, rfl, fun hcf => ?_⟩
  rw [if_neg (by simp [hcf])]
  cases hp : s1.persistent <;> simp [flushCallsOf]

/-- Witness for C10: a fallback-mode buffer constructed with
`prefer_coherent = true` is still non-coherent, and its first
`Map(100, 0)`/`Unmap(100)` pair flushes. -/
theorem fallback_noncoherent_flush_witness :
    (construct 1024 false true).1.coherent = false ∧
    (⟨1024, 0, false, false, 100, 0⟩ : StreamState).coherent =
      (construct 1024 false true).1.coherent ∧
    (⟨1024, 100, false, false, 100, 0⟩ : StreamState).coherent =
      (⟨1024, 0, false, false, 100, 0⟩ : StreamState).coherent ∧
    ((⟨1024, 0, false, false, 100, 0⟩ : StreamState).coherent = false →
      flushCallsOf [GLCall.flushMappedBufferRange 0 100, GLCall.unmapBuffer] =
        [((⟨1024, 0, false, false, 100, 0⟩ : StreamState).buffer_pos -
            (⟨1024, 0, false, false, 100, 0⟩ : StreamState).mapped_offset, 100)]) :=
  fallback_noncoherent_flush 1024 true (construct 1024 false true).1 100 0 100
    (⟨1024, 0, false, false, 100, 0⟩ : StreamState)
    (⟨1024, 100, false, false, 100, 0⟩ : StreamState)
    [GLCall.mapBufferRange 0 1024 (mkMapFlags false false false)]
    [GLCall.flushMappedBufferRange 0 100, GLCall.unmapBuffer]
    (⟨0, false⟩ : MapResult) (by rfl) (by rfl)

end StreamBuffer
